import Mathlib

/-!
Verification of the WebOptEnv MCP server (`src/web_opt/lighthouse/src/index.ts`).

The server keeps four mutable fields (`expressServer`, `expressApp`,
`currentPort`, `currentHtmlFile`) and exposes five tool handlers.  We embed the
handlers as pure functions over an explicit state record.  External effects
(file writes, `listen`, unzip/npm shell-outs, the Chrome launch and the
Lighthouse run) are resolved by explicit oracle records so every code path of a
handler is a branch of the Lean function.  Each handler also emits a trace of
observable events (close/unlink/write/listen, browser launch/kill) so that
ordering and resource-lifetime properties can be stated.
-/

/-- Filesystem paths as lists of segments (`path.join` semantics, below). -/
abbrev FsPath := List String

/-- Split a raw filename string on the slash character, as node treats a
relative path argument of `path.join` as slash-separated segments. -/
def splitSegsAux : List Char → List Char → List String
  | [], acc => [String.mk acc.reverse]
  | c :: cs, acc =>
    if c = '/' then String.mk acc.reverse :: splitSegsAux cs []
    else splitSegsAux cs (c :: acc)

def splitPath (s : String) : List String := splitSegsAux s.data []

/-- Core of node `path.join` normalization: append segments to a base path,
resolving `..` (pop), `.` and empty segments.  No sanitization: `..` pops past
the base directory. -/
def pathJoinAux : FsPath → List String → FsPath
  | acc, [] => acc
  | acc, s :: rest =>
    if s = ".." then pathJoinAux acc.dropLast rest
    else if s = "." ∨ s = "" then pathJoinAux acc rest
    else pathJoinAux (acc ++ [s]) rest

def pathJoin (base : FsPath) (rel : List String) : FsPath := pathJoinAux base rel

def pathToString (p : FsPath) : String := String.intercalate "/" p

/-- `const TEMP_DIR = path.join(__dirname, "../temp")`; `dir` stands for the
runtime `__dirname`. -/
def TEMP_DIR (dir : FsPath) : FsPath := pathJoin dir ["..", "temp"]

/-- `const DEFAULT_PORT = 8080`. -/
def DEFAULT_PORT : Nat := 8080

/-- JS `args.port || DEFAULT`: `undefined` and `0` are falsy. -/
def jsOrDefaultNat (v : Option Nat) (d : Nat) : Nat :=
  match v with
  | none => d
  | some n => if n = 0 then d else n

/-- JS `args.filename || dflt`: `undefined` and `""` are falsy. -/
def jsOrDefaultStr (v : Option String) (d : String) : String :=
  match v with
  | none => d
  | some s => if s = "" then d else s

/-- JS truthiness test `if (!url)` on an optional string. -/
def jsOrNoneStr (v : Option String) : Option String :=
  match v with
  | none => none
  | some s => if s = "" then none else some s

/-- The express server object stored in `this.expressServer`: its requested
port and whether `listen` actually bound (`listen` assigns the handle
synchronously; on an `error` event the handle exists but is not bound). -/
structure Handle where
  port : Nat
  bound : Bool
deriving DecidableEq, Repr

/-- The mutable fields of `WebOptEnvServer`. -/
structure SrvState where
  expressServer : Option Handle
  expressApp : Option FsPath
  currentPort : Nat
  currentHtmlFile : Option FsPath
deriving DecidableEq, Repr

/-- Initial state of the class: all handles null, `currentPort = DEFAULT_PORT`. -/
def idleState : SrvState :=
  { expressServer := none, expressApp := none,
    currentPort := DEFAULT_PORT, currentHtmlFile := none }

/-- Observable server-lifecycle events emitted by the handlers, in program
order.  `close p wasBound` records awaiting `server.close()` on a handle for
port `p` that was (`wasBound`) actually bound. -/
inductive Event where
  | close (p : Nat) (wasBound : Bool)
  | unlink (f : FsPath)
  | write (f : FsPath)
  | listen (p : Nat)
  | listenFail (p : Nat)
deriving DecidableEq, Repr

/-- Browser-process lifecycle events of a single tool call. -/
inductive BrowserEv where
  | launch
  | kill
deriving DecidableEq, Repr

/-- Tool replies, abstracting the JSON payloads.  `err` replies carry
`success:false` and `isError:true` in the code. -/
inductive Reply where
  | serveOk (url : String) (port : Nat) (filename : String)
  | deployOk (port : Nat)
  | stopOk
  | auditOk (url : String) (scores : List (String × Int))
  | screenshotOk
  | err (msg : String)
deriving DecidableEq, Repr

def Reply.success : Reply → Bool
  | .err _ => false
  | _ => true

def Reply.isError : Reply → Bool
  | .err _ => true
  | _ => false

/-- `private async stopServer()`: if a server handle exists, await its close
and null both `expressServer` and `expressApp`; then, if a SingleFile temp
file is recorded, unlink it (errors swallowed) and null the record. -/
def stopServer (s : SrvState) : SrvState × List Event :=
  let r :=
    match s.expressServer with
    | some h =>
      ({ s with expressServer := none, expressApp := none },
        [Event.close h.port h.bound])
    | none => (s, [])
  match r.1.currentHtmlFile with
  | some f => ({ r.1 with currentHtmlFile := none }, r.2 ++ [Event.unlink f])
  | none => r

structure ServeArgs where
  html_content : String
  filename : Option String
  port : Option Nat
deriving DecidableEq, Repr

/-- Outcomes of the two fallible effects of `handleServeHtml`:
`fs.writeFile` and `app.listen`. -/
structure ServeOracle where
  writeOk : Bool
  listenOk : Bool
deriving DecidableEq, Repr

/-- `private async handleServeHtml(args)`.  Resolves defaults, stops any
existing server, writes the HTML file to `path.join(TEMP_DIR, filename)`
(recording it in `currentHtmlFile`), mounts `express.static(TEMP_DIR)`, then
listens.  The `listen` handle is assigned synchronously, so a bind failure
leaves an unbound handle recorded before the catch produces the error reply. -/
def handleServeHtml (dir : FsPath) (s : SrvState) (args : ServeArgs)
    (o : ServeOracle) : SrvState × Reply × List Event :=
  let filename := jsOrDefaultStr args.filename "index.html"
  let port := jsOrDefaultNat args.port DEFAULT_PORT
  let r1 := if s.expressServer.isSome then stopServer s else (s, [])
  if o.writeOk then
    let filePath := pathJoin (TEMP_DIR dir) (splitPath filename)
    let s2 := { r1.1 with currentHtmlFile := some filePath,
                          expressApp := some (TEMP_DIR dir) }
    if o.listenOk then
      let url := "http://localhost:" ++ toString port ++ "/" ++ filename
      ({ s2 with expressServer := some { port := port, bound := true },
                 currentPort := port },
       Reply.serveOk url port filename,
       r1.2 ++ [Event.write filePath, Event.listen port])
    else
      ({ s2 with expressServer := some { port := port, bound := false } },
       Reply.err "listen EADDRINUSE",
       r1.2 ++ [Event.write filePath, Event.listenFail port])
  else
    (r1.1, Reply.err "EACCES: permission denied, open", r1.2)

structure DeployArgs where
  zip_content : String
  port : Option Nat
deriving DecidableEq, Repr

/-- Outcomes of the fallible effects of `handleDeployZip`: `Date.now()` for
the deployment directory name, the `unzip` shell-out, `npm install`,
`npm run build`, the `fs.access(distPath)` check and `app.listen`. -/
structure DeployOracle where
  now : Nat
  unzipOk : Bool
  installOk : Bool
  buildOk : Bool
  distExists : Bool
  listenOk : Bool
deriving DecidableEq, Repr

/-- `private async handleDeployZip(args)`.  Stops any existing server, makes
`deploy-<now>` under TEMP_DIR, unzips, then unconditionally runs
`npm install` and `npm run build` (`rootDir` is hard-coded to the empty
string, so `appPath = deployDir`; there is no manifest detection and no
static-site branch), requires `appPath/dist` to exist, mounts
`express.static(distPath)` and listens. -/
def handleDeployZip (dir : FsPath) (s : SrvState) (args : DeployArgs)
    (o : DeployOracle) : SrvState × Reply × List Event :=
  let port := jsOrDefaultNat args.port DEFAULT_PORT
  let r1 := if s.expressServer.isSome then stopServer s else (s, [])
  let deployDir := pathJoin (TEMP_DIR dir) ["deploy-" ++ toString o.now]
  let appPath := pathJoin deployDir []
  if o.unzipOk then
    if o.installOk then
      if o.buildOk then
        let distPath := pathJoin appPath ["dist"]
        if o.distExists then
          let s2 := { r1.1 with expressApp := some distPath }
          if o.listenOk then
            ({ s2 with expressServer := some { port := port, bound := true },
                       currentPort := port },
             Reply.deployOk port, r1.2 ++ [Event.listen port])
          else
            ({ s2 with expressServer := some { port := port, bound := false } },
             Reply.err "listen EADDRINUSE", r1.2 ++ [Event.listenFail port])
        else
          (r1.1,
           Reply.err ("Build directory not found at " ++ pathToString distPath),
           r1.2)
      else (r1.1, Reply.err "npm run build exited with code 1", r1.2)
    else (r1.1, Reply.err "npm install exited with code 1", r1.2)
  else (r1.1, Reply.err "unzip exited with code 9", r1.2)

/-- `private async handleStopServer()`: runs `stopServer` (which cannot throw:
the close callback always resolves and unlink errors are swallowed) and
replies `{success:true}`. -/
def handleStopServer (s : SrvState) : SrvState × Reply × List Event :=
  let r := stopServer s
  (r.1, Reply.stopOk, r.2)

structure AuditArgs where
  url : Option String
  categories : Option (List String)
deriving DecidableEq, Repr

/-- JS `Math.round`: round half toward positive infinity. -/
def jsRound (x : ℚ) : ℤ := ⌊x + 1 / 2⌋

/-- `data.score ? Math.round(data.score * 100) : 0` — `data.score` is the
engine's native score (`null` or a number in [0,1]); both `null` and `0` are
falsy. -/
def normalizeScore (sc : Option ℚ) : ℤ :=
  match sc with
  | none => 0
  | some v => if v = 0 then 0 else jsRound (v * 100)

/-- The per-category `results.scores` loop of `handleAuditWithLighthouse`,
over the engine report's `(category, native score)` entries. -/
def collectScores (report : List (String × Option ℚ)) : List (String × Int) :=
  report.map fun e => (e.1, normalizeScore e.2)

/-- Outcomes of the fallible effects of an audit: the Chrome launch, whether
the `lighthouse(url, options)` promise rejects, whether `runnerResult` is
non-null, and the engine's category report. -/
structure AuditOracle where
  launchOk : Bool
  runThrows : Bool
  resultSome : Bool
  report : List (String × Option ℚ)
deriving DecidableEq, Repr

def auditNoServerMsg : String :=
  "No server is currently running. Please deploy first using deploy_zip."

/-- The body of `handleAuditWithLighthouse` after URL resolution: launch
Chrome, run Lighthouse, `await chrome.kill()` only after a successful run
(there is no try/finally around the run), then null-check the result. -/
def auditRun (s : SrvState) (url : String) (o : AuditOracle) :
    SrvState × Reply × List BrowserEv :=
  if o.launchOk then
    if o.runThrows then
      (s, Reply.err "Navigation failed", [BrowserEv.launch])
    else
      if o.resultSome then
        (s, Reply.auditOk url (collectScores o.report),
         [BrowserEv.launch, BrowserEv.kill])
      else
        (s, Reply.err "Lighthouse audit failed to produce results",
         [BrowserEv.launch, BrowserEv.kill])
  else (s, Reply.err "chrome launch failed", [])

/-- `private async handleAuditWithLighthouse(args)`: if `url` is falsy and no
server handle is recorded, throw (caught into an error reply, no browser
launched); if `url` is falsy and a handle exists, synthesize
`http://localhost:${this.currentPort}` — the filename is never appended. -/
def handleAuditWithLighthouse (s : SrvState) (args : AuditArgs)
    (o : AuditOracle) : SrvState × Reply × List BrowserEv :=
  match jsOrNoneStr args.url with
  | none =>
    if s.expressServer.isSome then
      auditRun s ("http://localhost:" ++ toString s.currentPort) o
    else (s, Reply.err auditNoServerMsg, [])
  | some u => auditRun s u o

structure ShotArgs where
  url : String
  width : Option Nat
  height : Option Nat
deriving DecidableEq, Repr

/-- Outcomes of the fallible effects of a screenshot: the Chrome launch, the
DevTools fetch/connect, and the `page.goto` navigation (30s timeout). -/
structure ShotOracle where
  launchOk : Bool
  connectOk : Bool
  navOk : Bool
deriving DecidableEq, Repr

/-- `private async handleCaptureScreenshot(args)`: the puppeteer work is
wrapped in nested try/finally blocks, so once Chrome launched,
`chrome.kill()` runs on every exit path. -/
def handleCaptureScreenshot (args : ShotArgs) (o : ShotOracle) :
    Reply × List BrowserEv :=
  let _width := jsOrDefaultNat args.width 1280
  let _height := jsOrDefaultNat args.height 800
  if o.launchOk then
    if o.connectOk then
      if o.navOk then (Reply.screenshotOk, [BrowserEv.launch, BrowserEv.kill])
      else
        (Reply.err "Navigation timeout of 30000 ms exceeded",
         [BrowserEv.launch, BrowserEv.kill])
    else (Reply.err "fetch failed", [BrowserEv.launch, BrowserEv.kill])
  else (Reply.err "chrome launch failed", [])

/-- A server-state-mutating tool call together with its effect outcomes. -/
inductive Call where
  | serve (args : ServeArgs) (o : ServeOracle)
  | deploy (args : DeployArgs) (o : DeployOracle)
  | stop
deriving DecidableEq, Repr

def step (dir : FsPath) (s : SrvState) : Call → SrvState × Reply × List Event
  | Call.serve a o => handleServeHtml dir s a o
  | Call.deploy a o => handleDeployZip dir s a o
  | Call.stop => handleStopServer s

/-- Run a sequence of mutating calls (the calls are serialized: the MCP SDK
awaits each handler before dispatching the next request), concatenating the
event traces. -/
def runCalls (dir : FsPath) (s : SrvState) : List Call → SrvState × List Event
  | [] => (s, [])
  | c :: cs =>
    let r := step dir s c
    let rest := runCalls dir r.1 cs
    (rest.1, r.2.2 ++ rest.2)

/-- The multiset (here: list) of ports with a bound listener, evolved by one
event: a `close` of a bound handle unbinds its port, `listen` binds one. -/
def applyEv (b : List Nat) : Event → List Nat
  | Event.close p wasBound => if wasBound then b.erase p else b
  | Event.listen p => b ++ [p]
  | _ => b

/-- Ports bound according to a state: the recorded handle's port when it is
actually bound. -/
def boundOf (s : SrvState) : List Nat :=
  match s.expressServer with
  | some h => if h.bound then [h.port] else []
  | none => []

def boundAfter (b : List Nat) (tr : List Event) : List Nat :=
  tr.foldl applyEv b

/-- `true` iff at most one listener is bound at every observation point along
the trace (before, between and after the events). -/
def atMostOneAlongB (b : List Nat) : List Event → Bool
  | [] => decide (b.length ≤ 1)
  | e :: tr => decide (b.length ≤ 1) && atMostOneAlongB (applyEv b e) tr

def isListenEv : Event → Bool
  | Event.listen _ => true
  | _ => false

/-- Segment-wise path prefix test: is `p` inside directory `base`? -/
def startsWithB : FsPath → FsPath → Bool
  | [], _ => true
  | _ :: _, [] => false
  | b :: bs, q :: qs => b == q && startsWithB bs qs

/-- The URL the specification says the audit synthesizes when `url` is
omitted: from the served content's port and, for SingleFile content, also its
filename. -/
def specSynthesizedUrl (s : SrvState) : String :=
  match s.currentHtmlFile with
  | some f =>
    "http://localhost:" ++ toString s.currentPort ++ "/" ++ (f.getLast?).getD ""
  | none => "http://localhost:" ++ toString s.currentPort

/-- `true` iff the event `tgt` occurs in the trace strictly before every
`listen` event (vacuously true when no `listen` occurs). -/
def precedesListens (tgt : Event) : List Event → Bool
  | [] => true
  | e :: rest => e == tgt || (!(isListenEv e) && precedesListens tgt rest)

lemma boundOf_length_le_one (s : SrvState) : (boundOf s).length ≤ 1 := by
  unfold boundOf
  cases s.expressServer with
  | none => simp
  | some h => cases hb : h.bound <;> simp [hb]

lemma atMostOneAlongB_self (b : List Nat) (tr : List Event) :
    atMostOneAlongB b tr = (decide (b.length ≤ 1) && atMostOneAlongB b tr) := by
  cases tr with
  | nil => simp [atMostOneAlongB]
  | cons e t => simp [atMostOneAlongB, Bool.and_assoc]

lemma atMostOneAlongB_append (t1 : List Event) (b : List Nat) (t2 : List Event) :
    atMostOneAlongB b (t1 ++ t2) =
      (atMostOneAlongB b t1 && atMostOneAlongB (boundAfter b t1) t2) := by
  induction t1 generalizing b with
  | nil =>
    simp only [List.nil_append, atMostOneAlongB, boundAfter, List.foldl_nil]
    exact atMostOneAlongB_self b t2
  | cons e t ih =>
    simp only [List.cons_append, atMostOneAlongB, boundAfter, List.foldl_cons,
      List.append_eq, Bool.and_assoc]
    rw [ih]
    rfl

/-- C7: calling `stop_server` while Idle succeeds, performs no teardown
actions, and leaves the state unchanged. -/
theorem stop_server_idempotent_idle (s : SrvState)
    (h1 : s.expressServer = none) (h2 : s.currentHtmlFile = none) :
    handleStopServer s = (s, Reply.stopOk, []) ∧
    (handleStopServer s).2.1.success = true := by
  unfold handleStopServer stopServer
  rw [h1]
  simp only [h2]
  simp [Reply.success]

theorem stop_server_idempotent_idle_witness :
    idleState.expressServer = none ∧ idleState.currentHtmlFile = none ∧
    (handleStopServer idleState = (idleState, Reply.stopOk, []) ∧
      (handleStopServer idleState).2.1.success = true) :=
  ⟨rfl, rfl, stop_server_idempotent_idle idleState rfl rfl⟩

/-- C8: `serve_html` with no port and no filename replies with port 8080,
filename `index.html`, and url `http://localhost:8080/index.html`. -/
theorem serve_html_default_port (dir : FsPath) (s : SrvState) (content : String)
    (o : ServeOracle) (hw : o.writeOk = true) (hl : o.listenOk = true) :
    (handleServeHtml dir s
        { html_content := content, filename := none, port := none } o).2.1 =
      Reply.serveOk "http://localhost:8080/index.html" 8080 "index.html" := by
  simp [handleServeHtml, hw, hl, jsOrDefaultStr, jsOrDefaultNat, DEFAULT_PORT]
  rfl

theorem serve_html_default_port_witness :
    ({ writeOk := true, listenOk := true : ServeOracle }.writeOk = true) ∧
    ({ writeOk := true, listenOk := true : ServeOracle }.listenOk = true) ∧
    (handleServeHtml ["srv"] idleState
        { html_content := "<h1>x</h1>", filename := none, port := none }
        { writeOk := true, listenOk := true }).2.1 =
      Reply.serveOk "http://localhost:8080/index.html" 8080 "index.html" :=
  ⟨rfl, rfl,
    serve_html_default_port ["srv"] idleState "<h1>x</h1>"
      { writeOk := true, listenOk := true } rfl rfl⟩

lemma stopServer_step_bound (s : SrvState) :
    boundAfter (boundOf s) (stopServer s).2 = [] ∧
    boundOf (stopServer s).1 = [] ∧
    atMostOneAlongB (boundOf s) (stopServer s).2 = true := by
  obtain ⟨es, ea, cp, chf⟩ := s
  cases es with
  | none =>
    cases chf <;>
      simp [stopServer, boundOf, boundAfter, applyEv, atMostOneAlongB]
  | some h =>
    obtain ⟨p, b⟩ := h
    cases b <;> cases chf <;>
      simp [stopServer, boundOf, boundAfter, applyEv, atMostOneAlongB,
        List.erase_cons_head]

lemma serve_step_bound (dir : FsPath) (s : SrvState) (a : ServeArgs)
    (o : ServeOracle) :
    boundAfter (boundOf s) (handleServeHtml dir s a o).2.2 =
      boundOf (handleServeHtml dir s a o).1 ∧
    atMostOneAlongB (boundOf s) (handleServeHtml dir s a o).2.2 = true := by
  obtain ⟨w, l⟩ := o
  obtain ⟨es, ea, cp, chf⟩ := s
  cases es with
  | none =>
    cases chf <;> cases w <;> cases l <;>
      simp [handleServeHtml, stopServer, boundOf, boundAfter, applyEv,
        atMostOneAlongB, List.erase_cons_head]
  | some h =>
    obtain ⟨p, b⟩ := h
    cases b <;> cases chf <;> cases w <;> cases l <;>
      simp [handleServeHtml, stopServer, boundOf, boundAfter, applyEv,
        atMostOneAlongB, List.erase_cons_head]

lemma deploy_step_bound (dir : FsPath) (s : SrvState) (a : DeployArgs)
    (o : DeployOracle) :
    boundAfter (boundOf s) (handleDeployZip dir s a o).2.2 =
      boundOf (handleDeployZip dir s a o).1 ∧
    atMostOneAlongB (boundOf s) (handleDeployZip dir s a o).2.2 = true := by
  obtain ⟨now, uz, ins, bld, dst, l⟩ := o
  obtain ⟨es, ea, cp, chf⟩ := s
  cases es with
  | none =>
    cases chf <;> cases uz <;> cases ins <;> cases bld <;> cases dst <;>
        cases l <;>
      simp [handleDeployZip, stopServer, boundOf, boundAfter, applyEv,
        atMostOneAlongB, List.erase_cons_head]
  | some h =>
    obtain ⟨p, b⟩ := h
    cases b <;> cases chf <;> cases uz <;> cases ins <;> cases bld <;>
        cases dst <;> cases l <;>
      simp [handleDeployZip, stopServer, boundOf, boundAfter, applyEv,
        atMostOneAlongB, List.erase_cons_head]

lemma step_bound (dir : FsPath) (s : SrvState) (c : Call) :
    boundAfter (boundOf s) (step dir s c).2.2 = boundOf (step dir s c).1 ∧
    atMostOneAlongB (boundOf s) (step dir s c).2.2 = true := by
  cases c with
  | serve a o => exact serve_step_bound dir s a o
  | deploy a o => exact deploy_step_bound dir s a o
  | stop =>
    have h := stopServer_step_bound s
    constructor
    · simpa [step, handleStopServer] using h.1.trans h.2.1.symm
    · simpa [step, handleStopServer] using h.2.2

lemma runCalls_atMostOne (dir : FsPath) (s : SrvState) (cs : List Call) :
    atMostOneAlongB (boundOf s) (runCalls dir s cs).2 = true := by
  induction cs generalizing s with
  | nil =>
    simpa [runCalls, atMostOneAlongB] using boundOf_length_le_one s
  | cons c cs ih =>
    have hstep := step_bound dir s c
    simp only [runCalls, atMostOneAlongB_append, hstep.1, hstep.2, ih,
      Bool.and_self]

lemma serve_teardown_first (dir : FsPath) (s : SrvState) (a : ServeArgs)
    (o : ServeOracle) (h : Handle) (hs : s.expressServer = some h) :
    Event.close h.port h.bound ∈ (handleServeHtml dir s a o).2.2 ∧
    precedesListens (Event.close h.port h.bound)
        (handleServeHtml dir s a o).2.2 = true ∧
    ∀ f, s.currentHtmlFile = some f →
      Event.unlink f ∈ (handleServeHtml dir s a o).2.2 ∧
      precedesListens (Event.unlink f) (handleServeHtml dir s a o).2.2 = true := by
  obtain ⟨w, l⟩ := o
  cases hch : s.currentHtmlFile <;> cases w <;> cases l <;>
    simp [handleServeHtml, stopServer, hs, hch, precedesListens, isListenEv]

lemma deploy_teardown_first (dir : FsPath) (s : SrvState) (a : DeployArgs)
    (o : DeployOracle) (h : Handle) (hs : s.expressServer = some h) :
    Event.close h.port h.bound ∈ (handleDeployZip dir s a o).2.2 ∧
    precedesListens (Event.close h.port h.bound)
        (handleDeployZip dir s a o).2.2 = true ∧
    ∀ f, s.currentHtmlFile = some f →
      Event.unlink f ∈ (handleDeployZip dir s a o).2.2 ∧
      precedesListens (Event.unlink f) (handleDeployZip dir s a o).2.2 = true := by
  obtain ⟨now, uz, ins, bld, dst, l⟩ := o
  cases hch : s.currentHtmlFile <;> cases uz <;> cases ins <;> cases bld <;>
      cases dst <;> cases l <;>
    simp [handleDeployZip, stopServer, hs, hch, precedesListens, isListenEv]

lemma two_serves_run (dir : FsPath) (a1 a2 : ServeArgs) (o1 o2 : ServeOracle)
    (hw1 : o1.writeOk = true) (hl1 : o1.listenOk = true)
    (hw2 : o2.writeOk = true) (hl2 : o2.listenOk = true) :
    runCalls dir idleState [Call.serve a1 o1, Call.serve a2 o2] =
      ({ expressServer := some { port := jsOrDefaultNat a2.port DEFAULT_PORT,
                                 bound := true },
         expressApp := some (TEMP_DIR dir),
         currentPort := jsOrDefaultNat a2.port DEFAULT_PORT,
         currentHtmlFile := some (pathJoin (TEMP_DIR dir)
           (splitPath (jsOrDefaultStr a2.filename "index.html"))) },
       [Event.write (pathJoin (TEMP_DIR dir)
          (splitPath (jsOrDefaultStr a1.filename "index.html"))),
        Event.listen (jsOrDefaultNat a1.port DEFAULT_PORT),
        Event.close (jsOrDefaultNat a1.port DEFAULT_PORT) true,
        Event.unlink (pathJoin (TEMP_DIR dir)
          (splitPath (jsOrDefaultStr a1.filename "index.html"))),
        Event.write (pathJoin (TEMP_DIR dir)
          (splitPath (jsOrDefaultStr a2.filename "index.html"))),
        Event.listen (jsOrDefaultNat a2.port DEFAULT_PORT)]) := by
  simp [runCalls, step, handleServeHtml, stopServer, idleState, hw1, hl1,
    hw2, hl2]

/-- C1: for every serve/deploy/stop sequence at most one static file server
is bound at any observation point; a serve or deploy issued while a server
handle exists awaits the old server's close (and unlinks the old SingleFile
temp file) strictly before the new listen; and two successful `serve_html`
calls in a row from Idle leave exactly one listener, bound to the second
call's port, with the first call's temp file unlinked before the second
listen (visible in the emitted trace). -/
theorem single_server_invariant :
    (∀ dir s cs, atMostOneAlongB (boundOf s) (runCalls dir s cs).2 = true) ∧
    (∀ dir s a o h, s.expressServer = some h →
      Event.close h.port h.bound ∈ (handleServeHtml dir s a o).2.2 ∧
      precedesListens (Event.close h.port h.bound)
          (handleServeHtml dir s a o).2.2 = true ∧
      ∀ f, s.currentHtmlFile = some f →
        Event.unlink f ∈ (handleServeHtml dir s a o).2.2 ∧
        precedesListens (Event.unlink f)
          (handleServeHtml dir s a o).2.2 = true) ∧
    (∀ dir s a o h, s.expressServer = some h →
      Event.close h.port h.bound ∈ (handleDeployZip dir s a o).2.2 ∧
      precedesListens (Event.close h.port h.bound)
          (handleDeployZip dir s a o).2.2 = true ∧
      ∀ f, s.currentHtmlFile = some f →
        Event.unlink f ∈ (handleDeployZip dir s a o).2.2 ∧
        precedesListens (Event.unlink f)
          (handleDeployZip dir s a o).2.2 = true) ∧
    (∀ dir a1 a2 o1 o2, o1.writeOk = true → o1.listenOk = true →
      o2.writeOk = true → o2.listenOk = true →
      boundOf (runCalls dir idleState
          [Call.serve a1 o1, Call.serve a2 o2]).1 =
        [jsOrDefaultNat a2.port DEFAULT_PORT] ∧
      (runCalls dir idleState [Call.serve a1 o1, Call.serve a2 o2]).2 =
        [Event.write (pathJoin (TEMP_DIR dir)
           (splitPath (jsOrDefaultStr a1.filename "index.html"))),
         Event.listen (jsOrDefaultNat a1.port DEFAULT_PORT),
         Event.close (jsOrDefaultNat a1.port DEFAULT_PORT) true,
         Event.unlink (pathJoin (TEMP_DIR dir)
           (splitPath (jsOrDefaultStr a1.filename "index.html"))),
         Event.write (pathJoin (TEMP_DIR dir)
           (splitPath (jsOrDefaultStr a2.filename "index.html"))),
         Event.listen (jsOrDefaultNat a2.port DEFAULT_PORT)]) := by
  refine ⟨runCalls_atMostOne, serve_teardown_first, deploy_teardown_first, ?_⟩
  intro dir a1 a2 o1 o2 hw1 hl1 hw2 hl2
  have h := two_serves_run dir a1 a2 o1 o2 hw1 hl1 hw2 hl2
  constructor
  · rw [h]
    simp [boundOf]
  · rw [h]

theorem single_server_invariant_witness :
    atMostOneAlongB (boundOf idleState)
      (runCalls ["srv"] idleState
        [Call.serve ⟨"a", some "a.html", some 9001⟩ ⟨true, true⟩,
         Call.serve ⟨"b", some "b.html", some 9002⟩ ⟨true, true⟩,
         Call.stop]).2 = true ∧
    (Event.close 9001 true ∈
      (handleServeHtml ["srv"]
        ⟨some ⟨9001, true⟩, some ["temp"], 9001, some ["temp", "a.html"]⟩
        ⟨"b", some "b.html", some 9002⟩ ⟨true, true⟩).2.2 ∧
     precedesListens (Event.close 9001 true)
       (handleServeHtml ["srv"]
         ⟨some ⟨9001, true⟩, some ["temp"], 9001, some ["temp", "a.html"]⟩
         ⟨"b", some "b.html", some 9002⟩ ⟨true, true⟩).2.2 = true ∧
     ∀ f,
       (⟨some ⟨9001, true⟩, some ["temp"], 9001, some ["temp", "a.html"]⟩ :
           SrvState).currentHtmlFile = some f →
       Event.unlink f ∈
         (handleServeHtml ["srv"]
           ⟨some ⟨9001, true⟩, some ["temp"], 9001, some ["temp", "a.html"]⟩
           ⟨"b", some "b.html", some 9002⟩ ⟨true, true⟩).2.2 ∧
       precedesListens (Event.unlink f)
         (handleServeHtml ["srv"]
           ⟨some ⟨9001, true⟩, some ["temp"], 9001, some ["temp", "a.html"]⟩
           ⟨"b", some "b.html", some 9002⟩ ⟨true, true⟩).2.2 = true) ∧
    boundOf (runCalls ["srv"] idleState
        [Call.serve ⟨"a", some "a.html", some 9001⟩ ⟨true, true⟩,
         Call.serve ⟨"b", some "b.html", some 9002⟩ ⟨true, true⟩]).1 =
      [jsOrDefaultNat (some 9002) DEFAULT_PORT] :=
  ⟨single_server_invariant.1 ["srv"] idleState _,
   single_server_invariant.2.1 ["srv"]
     ⟨some ⟨9001, true⟩, some ["temp"], 9001, some ["temp", "a.html"]⟩
     ⟨"b", some "b.html", some 9002⟩ ⟨true, true⟩ ⟨9001, true⟩ rfl,
   (single_server_invariant.2.2.2 ["srv"]
     ⟨"a", some "a.html", some 9001⟩ ⟨"b", some "b.html", some 9002⟩
     ⟨true, true⟩ ⟨true, true⟩ rfl rfl rfl rfl).1⟩

/-- C2 counterexample: starting from Idle, a `serve_html` whose bind fails
returns a failure reply, yet the stored state is not the Idle state: the
failed (unbound) server handle remains recorded. -/
theorem failed_bind_not_idle_cex :
    (handleServeHtml ["srv"] idleState ⟨"x", none, none⟩
        ⟨true, false⟩).2.1.success = false ∧
    idleState.expressServer = none ∧
    (handleServeHtml ["srv"] idleState ⟨"x", none, none⟩
        ⟨true, false⟩).1.expressServer = some ⟨8080, false⟩ ∧
    (handleServeHtml ["srv"] idleState ⟨"x", none, none⟩
        ⟨true, false⟩).1 ≠ idleState := by
  decide

/-- C2 (amended): a failed `serve_html` or `deploy_zip` never leaves a bound
listener — any previously active server was fully stopped first and a failed
bind leaves the recorded handle unbound — but after a failed bind the stored
handle is the failed server object, not the Idle state's `none`. -/
theorem failed_call_leaves_no_bound_listener :
    (∀ dir s a o, ((handleServeHtml dir s a o).2.1.success = false →
        boundOf (handleServeHtml dir s a o).1 = []) ∧
      (o.writeOk = true → o.listenOk = false →
        (handleServeHtml dir s a o).1.expressServer =
          some ⟨jsOrDefaultNat a.port DEFAULT_PORT, false⟩)) ∧
    (∀ dir s a o, ((handleDeployZip dir s a o).2.1.success = false →
        boundOf (handleDeployZip dir s a o).1 = []) ∧
      (o.unzipOk = true → o.installOk = true → o.buildOk = true →
        o.distExists = true → o.listenOk = false →
        (handleDeployZip dir s a o).1.expressServer =
          some ⟨jsOrDefaultNat a.port DEFAULT_PORT, false⟩)) := by
  constructor
  · intro dir s a o
    obtain ⟨w, l⟩ := o
    cases hes : s.expressServer <;> cases hch : s.currentHtmlFile <;>
        cases w <;> cases l <;>
      simp [handleServeHtml, stopServer, boundOf, Reply.success, hes, hch]
  · intro dir s a o
    obtain ⟨now, uz, ins, bld, dst, l⟩ := o
    cases hes : s.expressServer <;> cases hch : s.currentHtmlFile <;>
        cases uz <;> cases ins <;> cases bld <;> cases dst <;> cases l <;>
      simp [handleDeployZip, stopServer, boundOf, Reply.success, hes, hch]

theorem failed_call_leaves_no_bound_listener_witness :
    ((handleServeHtml ["srv"] idleState ⟨"x", none, none⟩
        ⟨true, false⟩).2.1.success = false →
      boundOf (handleServeHtml ["srv"] idleState ⟨"x", none, none⟩
        ⟨true, false⟩).1 = []) ∧
    ((handleDeployZip ["srv"] idleState ⟨"UEsFBg==", none⟩
        ⟨0, true, true, false, false, false⟩).2.1.success = false →
      boundOf (handleDeployZip ["srv"] idleState ⟨"UEsFBg==", none⟩
        ⟨0, true, true, false, false, false⟩).1 = []) :=
  ⟨(failed_call_leaves_no_bound_listener.1 ["srv"] idleState
      ⟨"x", none, none⟩ ⟨true, false⟩).1,
   (failed_call_leaves_no_bound_listener.2 ["srv"] idleState
      ⟨"UEsFBg==", none⟩ ⟨0, true, true, false, false, false⟩).1⟩

/-- C5 counterexample: in the Serving state reached by
`serve_html(filename:"a.html", port:9001)`, an audit with `url` omitted uses
`http://localhost:9001`, while the URL synthesized per the specification
(port and, for SingleFile, filename) is `http://localhost:9001/a.html`: the
filename is never incorporated. -/
theorem audit_url_ignores_filename_cex :
    (handleAuditWithLighthouse
        (handleServeHtml ["srv"] idleState ⟨"x", some "a.html", some 9001⟩
          ⟨true, true⟩).1
        ⟨none, none⟩ ⟨true, false, true, []⟩).2.1 =
      Reply.auditOk "http://localhost:9001" [] ∧
    specSynthesizedUrl
        (handleServeHtml ["srv"] idleState ⟨"x", some "a.html", some 9001⟩
          ⟨true, true⟩).1 =
      "http://localhost:9001/a.html" ∧
    "http://localhost:9001" ≠
      specSynthesizedUrl
        (handleServeHtml ["srv"] idleState ⟨"x", some "a.html", some 9001⟩
          ⟨true, true⟩).1 := by
  decide

/-- C5 (amended): an audit call never changes the server state, and with
`url` omitted in a state with a recorded server handle the audited URL is
synthesized from the port alone, `http://localhost:<currentPort>`, with the
SingleFile filename ignored. -/
theorem audit_url_port_only (s : SrvState) (args : AuditArgs)
    (o : AuditOracle) :
    (handleAuditWithLighthouse s args o).1 = s ∧
    (args.url = none → s.expressServer.isSome = true →
      o.launchOk = true → o.runThrows = false → o.resultSome = true →
      (handleAuditWithLighthouse s args o).2.1 =
        Reply.auditOk ("http://localhost:" ++ toString s.currentPort)
          (collectScores o.report)) := by
  obtain ⟨la, rt, rs, rep⟩ := o
  constructor
  · cases hu : jsOrNoneStr args.url <;>
      cases hs : s.expressServer.isSome <;> cases la <;> cases rt <;>
        cases rs <;>
      simp [handleAuditWithLighthouse, auditRun, hu, hs]
  · intro h1 h2 h3 h4 h5
    have hu : jsOrNoneStr args.url = none := by rw [h1]; rfl
    subst h3 h4 h5
    simp [handleAuditWithLighthouse, auditRun, hu, h2]

theorem audit_url_port_only_witness :
    (handleAuditWithLighthouse
        ⟨some ⟨9001, true⟩, some ["temp"], 9001, some ["temp", "a.html"]⟩
        ⟨none, none⟩ ⟨true, false, true, []⟩).1 =
      ⟨some ⟨9001, true⟩, some ["temp"], 9001, some ["temp", "a.html"]⟩ ∧
    ((⟨none, none⟩ : AuditArgs).url = none →
      (⟨some ⟨9001, true⟩, some ["temp"], 9001, some ["temp", "a.html"]⟩ :
          SrvState).expressServer.isSome = true →
      (⟨true, false, true, []⟩ : AuditOracle).launchOk = true →
      (⟨true, false, true, []⟩ : AuditOracle).runThrows = false →
      (⟨true, false, true, []⟩ : AuditOracle).resultSome = true →
      (handleAuditWithLighthouse
          ⟨some ⟨9001, true⟩, some ["temp"], 9001, some ["temp", "a.html"]⟩
          ⟨none, none⟩ ⟨true, false, true, []⟩).2.1 =
        Reply.auditOk
          ("http://localhost:" ++
            toString (⟨some ⟨9001, true⟩, some ["temp"], 9001,
              some ["temp", "a.html"]⟩ : SrvState).currentPort)
          (collectScores (⟨true, false, true, []⟩ : AuditOracle).report)) :=
  audit_url_port_only
    ⟨some ⟨9001, true⟩, some ["temp"], 9001, some ["temp", "a.html"]⟩
    ⟨none, none⟩ ⟨true, false, true, []⟩

/-- C6: an audit issued with no url while no server handle is recorded
returns the `{success:false, error, isError:true}` reply whose message
references the missing-server precondition, changes no state, and launches
no browser. -/
theorem audit_idle_no_url_fails (s : SrvState) (args : AuditArgs)
    (o : AuditOracle) (hs : s.expressServer = none) (hu : args.url = none) :
    handleAuditWithLighthouse s args o = (s, Reply.err auditNoServerMsg, []) ∧
    (Reply.err auditNoServerMsg).success = false ∧
    (Reply.err auditNoServerMsg).isError = true ∧
    auditNoServerMsg.data.take 9 = ("No server").data := by
  have hu2 : jsOrNoneStr args.url = none := by rw [hu]; rfl
  refine ⟨?_, rfl, rfl, by decide⟩
  simp [handleAuditWithLighthouse, hu2, hs]

theorem audit_idle_no_url_fails_witness :
    idleState.expressServer = none ∧
    ((⟨none, none⟩ : AuditArgs).url = none) ∧
    (handleAuditWithLighthouse idleState ⟨none, none⟩
        ⟨true, false, true, []⟩ =
      (idleState, Reply.err auditNoServerMsg, []) ∧
     (Reply.err auditNoServerMsg).success = false ∧
     (Reply.err auditNoServerMsg).isError = true ∧
     auditNoServerMsg.data.take 9 = ("No server").data) :=
  ⟨rfl, rfl,
    audit_idle_no_url_fails idleState ⟨none, none⟩ ⟨true, false, true, []⟩
      rfl rfl⟩

/-- C3: evaluating `deploy_zip` on a manifest-less static-site archive.  In
reality `npm install` exits 0 even without a manifest but `npm run build`
fails (`Could not read package.json`), so the oracle has
`installOk := true, buildOk := false`: the call fails instead of serving the
extraction directory, because the handler runs install/build unconditionally
(no manifest detection).  Second conjunct: when a build runs but the `dist`
output directory is missing, the reply is the `Build directory not found`
error, not a fallback to static mode. -/
theorem deploy_static_zip_run :
    ((handleDeployZip ["srv"] idleState ⟨"UEsFBg==", none⟩
        ⟨0, true, true, false, false, false⟩).2.1.success = false ∧
     (handleDeployZip ["srv"] idleState ⟨"UEsFBg==", none⟩
        ⟨0, true, true, false, false, false⟩).1 = idleState ∧
     (handleDeployZip ["srv"] idleState ⟨"UEsFBg==", none⟩
        ⟨0, true, true, false, false, false⟩).2.2 = []) ∧
    (handleDeployZip ["srv"] idleState ⟨"UEsFBg==", none⟩
        ⟨0, true, true, true, false, false⟩).2.1 =
      Reply.err ("Build directory not found at " ++
        pathToString (pathJoin (pathJoin (TEMP_DIR ["srv"]) ["deploy-0"])
          ["dist"])) := by
  decide

/-- C4: an `audit_with_lighthouse` call whose Lighthouse run throws returns
its failure reply with the launched Chrome process never killed (the kill is
only on the success path), while `capture_screenshot` kills Chrome on its
failure paths via try/finally. -/
theorem audit_browser_leak_run :
    ((handleAuditWithLighthouse idleState
        ⟨some "http://localhost:9999/", none⟩ ⟨true, true, false, []⟩).2.2 =
      [BrowserEv.launch] ∧
     BrowserEv.kill ∉
      (handleAuditWithLighthouse idleState
        ⟨some "http://localhost:9999/", none⟩ ⟨true, true, false, []⟩).2.2 ∧
     (handleAuditWithLighthouse idleState
        ⟨some "http://localhost:9999/", none⟩
        ⟨true, true, false, []⟩).2.1.success = false) ∧
    (handleCaptureScreenshot ⟨"http://10.255.255.1/", none, none⟩
        ⟨true, true, false⟩).2 = [BrowserEv.launch, BrowserEv.kill] ∧
    (handleCaptureScreenshot ⟨"http://10.255.255.1/", none, none⟩
        ⟨true, true, false⟩).1.success = false := by
  decide

lemma jsRound_zero : jsRound 0 = 0 := by
  rw [jsRound, Int.floor_eq_zero_iff]
  constructor <;> norm_num

lemma jsRound_bounds (v : ℚ) (h0 : 0 ≤ v) (h1 : v ≤ 1) :
    0 ≤ jsRound (v * 100) ∧ jsRound (v * 100) ≤ 100 := by
  constructor
  · rw [jsRound]
    refine Int.le_floor.mpr ?_
    push_cast
    linarith
  · rw [jsRound]
    have hlt : (⌊v * 100 + 1 / 2⌋ : ℤ) < 101 := by
      refine Int.floor_lt.mpr ?_
      push_cast
      linarith
    omega

lemma normalizeScore_eq (sc : Option ℚ) :
    normalizeScore sc = sc.elim 0 (fun v => jsRound (v * 100)) := by
  cases sc with
  | none => rfl
  | some v =>
    by_cases hv : v = 0
    · subst hv
      simp [normalizeScore, jsRound_zero]
    · simp [normalizeScore, hv]

/-- C9: every per-category entry of the collected scores equals the engine's
native 0–1 score times 100, rounded (`Math.round`), with an absent score
mapped to 0; and every such normalized score lies in 0–100. -/
theorem lighthouse_score_normalization (report : List (String × Option ℚ))
    (hb : ∀ e ∈ report, ∀ v, e.2 = some v → 0 ≤ v ∧ v ≤ 1) :
    collectScores report =
      report.map (fun e => (e.1, e.2.elim 0 (fun v => jsRound (v * 100)))) ∧
    ∀ p ∈ collectScores report, 0 ≤ p.2 ∧ p.2 ≤ 100 := by
  constructor
  · simp [collectScores, normalizeScore_eq]
  · intro p hp
    rcases List.mem_map.mp hp with ⟨e, he, rfl⟩
    rcases hsc : e.2 with _ | v
    · simp [normalizeScore, hsc]
    · by_cases hv : v = 0
      · subst hv
        simp [normalizeScore, hsc]
      · have hb2 := hb e he v hsc
        have hr := jsRound_bounds v hb2.1 hb2.2
        simpa [normalizeScore, hsc, hv] using hr

theorem lighthouse_score_normalization_witness :
    (∀ e ∈ [("performance", some ((93 : ℚ) / 100)),
            ("pwa", (none : Option ℚ))],
       ∀ v, e.2 = some v → 0 ≤ v ∧ v ≤ 1) ∧
    (collectScores [("performance", some ((93 : ℚ) / 100)),
        ("pwa", (none : Option ℚ))] =
      [("performance", some ((93 : ℚ) / 100)),
       ("pwa", (none : Option ℚ))].map
        (fun e => (e.1, e.2.elim 0 (fun v => jsRound (v * 100)))) ∧
     ∀ p ∈ collectScores [("performance", some ((93 : ℚ) / 100)),
        ("pwa", (none : Option ℚ))], 0 ≤ p.2 ∧ p.2 ≤ 100) := by
  have hb : ∀ e ∈ [("performance", some ((93 : ℚ) / 100)),
      ("pwa", (none : Option ℚ))], ∀ v, e.2 = some v → 0 ≤ v ∧ v ≤ 1 := by
    intro e he v hv
    rcases List.mem_cons.mp he with h | h
    · subst h
      simp only [Option.some.injEq] at hv
      subst hv
      norm_num
    · simp only [List.mem_singleton] at h
      subst h
      simp at hv
  exact ⟨hb, lighthouse_score_normalization _ hb⟩

lemma startsWithB_append_last (l : List String) (a b : String) :
    startsWithB (l ++ [a]) (l ++ [b]) = (a == b) := by
  induction l with
  | nil => simp [startsWithB]
  | cons x xs ih => simpa [startsWithB] using ih

lemma TEMP_DIR_eq (dir : FsPath) : TEMP_DIR dir = dir.dropLast ++ ["temp"] := by
  simp [TEMP_DIR, pathJoin, pathJoinAux]

lemma splitPath_parent : splitPath "../evil.html" = ["..", "evil.html"] := by
  decide

/-- C10: `serve_html` writes the HTML to `path.join(TEMP_DIR, filename)`
with the caller's filename unvalidated and no per-call directory, and serves
`TEMP_DIR` as the root; a filename with a `..` component resolves outside
`TEMP_DIR` (into the install directory's parent). -/
theorem serve_html_path_join_unsanitized :
    (∀ dir s a o fn, a.filename = some fn → fn ≠ "" → o.writeOk = true →
      (handleServeHtml dir s a o).1.currentHtmlFile =
        some (pathJoin (TEMP_DIR dir) (splitPath fn)) ∧
      (handleServeHtml dir s a o).1.expressApp = some (TEMP_DIR dir)) ∧
    (∀ dir, pathJoin (TEMP_DIR dir) (splitPath "../evil.html") =
        dir.dropLast ++ ["evil.html"] ∧
      startsWithB (TEMP_DIR dir)
        (pathJoin (TEMP_DIR dir) (splitPath "../evil.html")) = false) := by
  constructor
  · intro dir s a o fn hfn hne hw
    obtain ⟨w, l⟩ := o
    simp only at hw
    subst hw
    cases l <;>
      simp [handleServeHtml, stopServer, jsOrDefaultStr, hfn, hne]
  · intro dir
    have h1 : pathJoin (TEMP_DIR dir) (splitPath "../evil.html") =
        dir.dropLast ++ ["evil.html"] := by
      rw [splitPath_parent, TEMP_DIR_eq]
      simp [pathJoin, pathJoinAux]
    refine ⟨h1, ?_⟩
    rw [h1, TEMP_DIR_eq, startsWithB_append_last]
    decide

theorem serve_html_path_join_unsanitized_witness :
    ((⟨"x", some "../evil.html", none⟩ : ServeArgs).filename =
        some "../evil.html") ∧
    ("../evil.html" ≠ "") ∧
    ((⟨true, true⟩ : ServeOracle).writeOk = true) ∧
    ((handleServeHtml ["srv", "app", "src"] idleState
        ⟨"x", some "../evil.html", none⟩ ⟨true, true⟩).1.currentHtmlFile =
      some (pathJoin (TEMP_DIR ["srv", "app", "src"])
        (splitPath "../evil.html")) ∧
     (handleServeHtml ["srv", "app", "src"] idleState
        ⟨"x", some "../evil.html", none⟩ ⟨true, true⟩).1.expressApp =
      some (TEMP_DIR ["srv", "app", "src"])) ∧
    (pathJoin (TEMP_DIR ["srv", "app", "src"]) (splitPath "../evil.html") =
        (["srv", "app", "src"] : FsPath).dropLast ++ ["evil.html"] ∧
     startsWithB (TEMP_DIR ["srv", "app", "src"])
       (pathJoin (TEMP_DIR ["srv", "app", "src"])
         (splitPath "../evil.html")) = false) :=
  ⟨rfl, by decide, rfl,
   serve_html_path_join_unsanitized.1 ["srv", "app", "src"] idleState
     ⟨"x", some "../evil.html", none⟩ ⟨true, true⟩ "../evil.html" rfl
     (by decide) rfl,
   serve_html_path_join_unsanitized.2 ["srv", "app", "src"]⟩
